import Mathlib

/-
  Verification of the PUT validation and commit core of sn_node
  (src/sn_node/src/put_validation.rs).

  The Rust code is shallowly embedded: every external collaborator
  (network, wallet on disk, record store, cryptographic verification)
  is a field of an explicit environment Env, and every function of the
  core is a pure Lean function from Env and its Rust arguments to a
  pair of a result (Except Error _) and the ordered list of observable
  side effects it performed.  Machine integers (u64 NanoTokens) are
  modelled as Nat with explicit checked addition against 2 ^ 64.
-/

namespace PutValidation

/-- The maximum number of double spend attempts to store that we got from PUTs
    (constant from put_validation.rs). -/
def MAX_DOUBLE_SPEND_ATTEMPTS_TO_KEEP_FROM_PUTS : Nat := 15

/-- The maximum number of double spend attempts to store inside a record
    (constant from put_validation.rs). -/
def MAX_DOUBLE_SPEND_ATTEMPTS_TO_KEEP_PER_RECORD : Nat := 30

/-- Modelled from the spec: MAX_PACKET_SIZE is the networking layer packet
    cap (sn_networking, not part of the sources under verification).  The
    spec uses it only through the threshold MAX_PACKET_SIZE / 2; its exact
    value never matters to the claims, a representative value is used. -/
def MAX_PACKET_SIZE : Nat := 5 * 1024 * 1024

/-- Record keys of the DHT, abstract fixed-width identifiers. -/
abbrev Key := Nat

/-- Serialized bytes. -/
abbrev Bytes := List Nat

/-- The kinds of records (RecordKind in sn_protocol). -/
inductive RecordKind where
  | Chunk
  | ChunkWithPayment
  | Register
  | RegisterWithPayment
  | Spend
deriving DecidableEq, Repr

/-- A network address (NetworkAddress in sn_protocol): the intrinsic
    address of a payload, by payload family. -/
inductive NetworkAddress where
  | chunk (name : Nat)
  | register (addr : Nat)
  | spend (addr : Nat)
deriving DecidableEq, Repr

/-- NetworkAddress::to_record_key, the canonical (injective) derivation of
    a DHT key from an address. -/
def NetworkAddress.to_record_key : NetworkAddress → Key
  | .chunk n => Nat.pair 0 n
  | .register a => Nat.pair 1 a
  | .spend a => Nat.pair 2 a

/-- SpendAddress::from_unique_pubkey: derivation of a spend address from a
    unique public key (a hash in the source; modelled as the identity on
    the abstract key space). -/
def spendAddrOfPk (pk : Nat) : Nat := pk

/-- An immutable content-addressed chunk; its name is the hash of its
    contents, which is all the core inspects. -/
structure Chunk where
  name : Nat
deriving DecidableEq, Repr

/-- Chunk::network_address. -/
def Chunk.network_address (c : Chunk) : NetworkAddress := .chunk c.name

/-- A signed register (SignedRegister in sn_registers), abstracted to its
    address and an opaque payload distinguishing register states. -/
structure SignedRegister where
  addr : Nat
  data : Nat
deriving DecidableEq, Repr

/-- SignedRegister::address composed with NetworkAddress::from_register_address
    and to_record_key. -/
def SignedRegister.record_key (r : SignedRegister) : Key :=
  (NetworkAddress.register r.addr).to_record_key

/-- A signed spend (SignedSpend in sn_transfers): its unique public key
    plus an opaque component distinguishing double spends of one key. -/
structure SignedSpend where
  pk : Nat
  content : Nat
deriving DecidableEq, Repr

/-- The canonical record key of a spend: SpendAddress::from_unique_pubkey
    then NetworkAddress::from_spend_address then to_record_key. -/
def SignedSpend.record_key (s : SignedSpend) : Key :=
  (NetworkAddress.spend (spendAddrOfPk s.pk)).to_record_key

/-- The strict order used by the BTreeSet of SignedSpend (the derived Ord
    of the Rust type): lexicographic over the fields. -/
def spendLt (a b : SignedSpend) : Bool :=
  a.pk < b.pk || (a.pk = b.pk && a.content < b.content)

/-- TransferError (sn_transfers), abstracted: the InvalidParentSpend case
    is distinguished because the core raises it itself. -/
inductive TransferErr where
  | invalidParentSpend
  | other (code : Nat)
deriving DecidableEq, Repr

/-- A cash note (CashNote in sn_transfers): unique public key and the
    result of its value derivation (CashNote::value can fail). -/
structure CashNote where
  pk : Nat
  amount : Nat
  valueErr : Option TransferErr
deriving DecidableEq, Repr

/-- A transfer inside a payment (Transfer in sn_transfers). -/
inductive Transfer where
  | encrypted (blob : Nat)
  | networkRoyalties (redemptions : List Nat)
deriving DecidableEq, Repr

/-- A payment quote, abstracted to its cost (the only field the core
    reads; signature checking is delegated to the environment). -/
structure Quote where
  cost : Nat
deriving DecidableEq, Repr

/-- Payment: a list of transfers plus a store-cost quote. -/
structure Payment where
  transfers : List Transfer
  quote : Quote
deriving DecidableEq, Repr

/-- The typed value of a record: a header kind plus payload.  badHeader
    models a value whose RecordHeader does not parse; badPayload models a
    parsed header whose payload does not deserialize as the kind demands. -/
inductive RecordValue where
  | chunk (c : Chunk)
  | chunkWithPayment (p : Payment) (c : Chunk)
  | register (r : SignedRegister)
  | registerWithPayment (p : Payment) (r : SignedRegister)
  | spends (l : List SignedSpend)
  | badHeader
  | badPayload (k : RecordKind)
deriving DecidableEq, Repr

/-- A DHT record (libp2p::kad::Record): key and value (publisher and
    expires are always None in this core). -/
structure Record where
  key : Key
  value : RecordValue
deriving DecidableEq, Repr

/-- The error type of the core (crate::Error), with one constructor per
    error raised in put_validation.rs and opaque wrappers for errors
    passed through from collaborators. -/
inductive Error where
  | recordKeyMismatch
  | invalidPutWithoutPayment (k : Key)
  | unexpectedRecordWithPayment (k : Key)
  | noPaymentToOurNode (k : Key)
  | reusedPayment
  | noNetworkRoyaltiesPayment (k : Key)
  | paymentProofInsufficientAmount (paid expected : Nat)
  | numericOverflow
  | invalidRequest (tag : Nat)
  | transfers (e : TransferErr)
  | recordKindMismatch (k : RecordKind)
  | serialization (code : Nat)
  | network (code : Nat)
  | wallet (code : Nat)
  | register (code : Nat)
  | quote (code : Nat)
deriving DecidableEq, Repr

/-- Result of sn_networking verify_spend. -/
inductive SpendVerificationOk where
  | valid
  | parentDoubleSpend
deriving DecidableEq, Repr

/-- Error type of verify_and_unpack_transfer: the FailedToDecypherTransfer
    case is recovered from (transfer not for us), all others are fatal. -/
inductive NetErr where
  | failedToDecypher
  | other (code : Nat)
deriving DecidableEq, Repr

/-- The result of the network get for raw spends (get_raw_spends),
    covering every case the source matches on. -/
inductive SpendsFetchResult where
  | ok (spends : List SignedSpend)
  | recordNotFound
  | splitRecord (records : List Record)
  | notEnoughCopies (record : Record) (got : Nat)
  | otherError (code : Nat)
deriving Repr

/-- The observable side effects of the core, in the order performed. -/
inductive Effect where
  | notifyFetchCompleted (k : Key)
  | presenceCheck (k : Key)
  | transferVerify (blob : Nat)
  | royaltyVerify (redemptions : List Nat)
  | notifyPaymentReceived
  | depositToWallet (notes : List CashNote)
  | localRecordGet (k : Key)
  | networkSpendFetch (addr : Nat)
  | spendVerify (s : SignedSpend)
  | putLocalRecord (r : Record)
  | replicateChunk (k : Key)
  | replicateNonChunk (k : Key) (contentHash : Nat)
  | chunkStoredEvent (name : Nat)
deriving DecidableEq, Repr

/-- The environment: every external collaborator of the core, as pure
    oracles.  Each field models the result of one kind of external call. -/
structure Env where
  /-- HotWallet::load_from(root_dir): the wallet balance on disk, or a
      wallet error. -/
  walletLoad : Except Nat Nat
  /-- wallet.get_confirmed_spend(addr): ok true models Ok(Some _),
      ok false models Ok(None), error models Err. -/
  confirmedSpend : Nat → Except Nat Bool
  /-- wallet.deposit_and_store_to_disk(notes). -/
  depositResult : List CashNote → Except Nat Unit
  /-- network.verify_and_unpack_transfer on an encrypted transfer. -/
  verifyTransfer : Nat → Except NetErr (List CashNote)
  /-- network.verify_cash_notes_redemptions against the royalty key. -/
  verifyRedemptions : List Nat → Except Nat (List CashNote)
  /-- quote::verify_quote_for_storecost. -/
  verifyQuote : Quote → NetworkAddress → Except Nat Unit
  /-- network.is_record_key_present_locally. -/
  presentLocally : Key → Except Nat Bool
  /-- network.get_local_record. -/
  getLocalRecord : Key → Except Nat (Option Record)
  /-- network.get_raw_spends at a spend address. -/
  getRawSpends : Nat → SpendsFetchResult
  /-- network.verify_spend on a single signed spend. -/
  verifySpend : SignedSpend → Except Nat SpendVerificationOk
  /-- SignedRegister::verify. -/
  registerVerify : SignedRegister → Except Nat Unit
  /-- SignedRegister::verified_merge local incoming (result of merging
      incoming into a clone of local). -/
  verifiedMerge : SignedRegister → SignedRegister → Except Nat SignedRegister
  /-- try_serialize_record of a spend list (bytes; length is the size). -/
  serializeSpends : List SignedSpend → Except Nat Bytes
  /-- try_serialize_record of a register. -/
  serializeRegister : SignedRegister → Except Nat Bytes
  /-- try_serialize_record of a chunk. -/
  serializeChunk : Chunk → Except Nat Bytes
  /-- XorName::from_content over serialized bytes. -/
  hashBytes : Bytes → Nat
  /-- XorName::from_content over the raw value bytes of a record. -/
  hashValue : RecordValue → Nat

/-- RecordHeader::from_record: recover the kind from the value. -/
def recordHeaderKind : RecordValue → Except Error RecordKind
  | .chunk _ => .ok .Chunk
  | .chunkWithPayment _ _ => .ok .ChunkWithPayment
  | .register _ => .ok .Register
  | .registerWithPayment _ _ => .ok .RegisterWithPayment
  | .spends _ => .ok .Spend
  | .badHeader => .error (.serialization 0)
  | .badPayload k => .ok k

/-- try_deserialize_record at type (Payment, Chunk). -/
def deserializeChunkWithPayment : RecordValue → Except Error (Payment × Chunk)
  | .chunkWithPayment p c => .ok (p, c)
  | _ => .error (.serialization 1)

/-- try_deserialize_record at type Chunk. -/
def deserializeChunk : RecordValue → Except Error Chunk
  | .chunk c => .ok c
  | _ => .error (.serialization 2)

/-- try_deserialize_record at type SignedRegister. -/
def deserializeRegister : RecordValue → Except Error SignedRegister
  | .register r => .ok r
  | _ => .error (.serialization 3)

/-- try_deserialize_record at type (Payment, SignedRegister). -/
def deserializeRegisterWithPayment :
    RecordValue → Except Error (Payment × SignedRegister)
  | .registerWithPayment p r => .ok (p, r)
  | _ => .error (.serialization 4)

/-- try_deserialize_record at type Vec of SignedSpend. -/
def deserializeSpends : RecordValue → Except Error (List SignedSpend)
  | .spends l => .ok l
  | _ => .error (.serialization 5)

/-- Checked u64 addition (NanoTokens::checked_add). -/
def checked_add (a b : Nat) : Option Nat :=
  if a + b < 2 ^ 64 then some (a + b) else none

/-- Modelled from the spec: calculate_royalties_fee (sn_transfers, not
    part of the sources under verification) computes the network royalty
    surcharge for a store cost; the spec example uses a ten percent rate
    (storecost 100 gives royalty 10, expected fee 110). -/
def calculate_royalties_fee (storecost : Nat) : Nat := storecost / 10

/-- CashNote::value. -/
def cashNoteValue (cn : CashNote) : Except Error Nat :=
  match cn.valueErr with
  | some e => .error (.transfers e)
  | none => .ok cn.amount

/-- Accumulating loop of total_cash_notes_amount, first note first as in
    the source. -/
def totalCashNotesGo (acc : Nat) : List CashNote → Except Error Nat
  | [] => .ok acc
  | cn :: rest =>
    match cashNoteValue cn with
    | .error e => .error e
    | .ok v =>
      match checked_add acc v with
      | none => .error .numericOverflow
      | some s => totalCashNotesGo s rest

/-- total_cash_notes_amount: checked sum of the values of cash notes. -/
def total_cash_notes_amount (notes : List CashNote) : Except Error Nat :=
  totalCashNotesGo 0 notes

/-- The per-transfer loop of cash_notes_from_transfers: walks the
    transfers accumulating the royalty fee received so far, the cash
    notes decoded for this node, and the royalty redemptions seen. -/
def cashNotesLoop (env : Env) :
    List Transfer → Nat → List CashNote → List Nat →
    Except Error (Nat × List CashNote × List Nat) × List Effect
  | [], fee, notes, roys => (.ok (fee, notes, roys), [])
  | t :: rest, fee, notes, roys =>
    match t with
    | .encrypted blob =>
      match env.verifyTransfer blob with
      | .error .failedToDecypher =>
        let (r, tr) := cashNotesLoop env rest fee notes roys
        (r, .transferVerify blob :: tr)
      | .error (.other e) => (.error (.network e), [.transferVerify blob])
      | .ok cns =>
        let (r, tr) := cashNotesLoop env rest fee (notes ++ cns) roys
        (r, .transferVerify blob :: tr)
    | .networkRoyalties reds =>
      match env.verifyRedemptions reds with
      | .ok cns =>
        match total_cash_notes_amount cns with
        | .error e => (.error e, [.royaltyVerify reds])
        | .ok amt =>
          match checked_add fee amt with
          | none => (.error .numericOverflow, [.royaltyVerify reds])
          | some fee2 =>
            let (r, tr) := cashNotesLoop env rest fee2 notes (roys ++ reds)
            (r, .royaltyVerify reds :: tr)
      | .error _ =>
        let (r, tr) := cashNotesLoop env rest fee notes roys
        (r, .royaltyVerify reds :: tr)

/-- cash_notes_from_transfers: walk the transfers, then fail with
    NoPaymentToOurNode when no cash note was for this node, else add the
    total of our cash notes to the running fee. -/
def cash_notes_from_transfers (env : Env) (transfers : List Transfer)
    (key : Key) :
    Except Error (Nat × List CashNote × List Nat) × List Effect :=
  match cashNotesLoop env transfers 0 [] [] with
  | (.error e, tr) => (.error e, tr)
  | (.ok (fee, cash_notes, roys), tr) =>
    match cash_notes with
    | [] => (.error (.noPaymentToOurNode key), tr)
    | _ =>
      match total_cash_notes_amount cash_notes with
      | .error e => (.error e, tr)
      | .ok toUs =>
        match checked_add fee toUs with
        | none => (.error .numericOverflow, tr)
        | some fee2 => (.ok (fee2, cash_notes, roys), tr)

/-- wallet.get_confirmed_spend(addr) matched against Ok(Some _). -/
def alreadySpent (env : Env) (cn : CashNote) : Bool :=
  match env.confirmedSpend (spendAddrOfPk cn.pk) with
  | .ok b => b
  | .error _ => false

/-- The part of payment_for_us_exists_and_is_still_valid after the
    transfers were decoded: replay filter, payment notification, wallet
    deposit, royalty presence, quote check, sufficiency check. -/
def paymentAfterDecode (env : Env) (address : NetworkAddress)
    (payment : Payment) (received_fee : Nat) (cash_notes : List CashNote)
    (royalties : List Nat) : Except Error Unit × List Effect :=
  let kept := cash_notes.filter (fun cn => !alreadySpent env cn)
  match kept with
  | [] => (.error .reusedPayment, [])
  | _ =>
    match env.depositResult kept with
    | .error e =>
      (.error (.wallet e), [.notifyPaymentReceived, .depositToWallet kept])
    | .ok () =>
      let tr := [Effect.notifyPaymentReceived, Effect.depositToWallet kept]
      match royalties with
      | [] => (.error (.noNetworkRoyaltiesPayment address.to_record_key), tr)
      | _ =>
        let storecost := payment.quote.cost
        match env.verifyQuote payment.quote address with
        | .error e => (.error (.quote e), tr)
        | .ok () =>
          let expected_royalties := calculate_royalties_fee storecost
          match checked_add storecost expected_royalties with
          | none => (.error .numericOverflow, tr)
          | some expected_fee =>
            if received_fee < expected_fee then
              (.error
                  (.paymentProofInsufficientAmount received_fee expected_fee),
                tr)
            else (.ok (), tr)

/-- payment_for_us_exists_and_is_still_valid: load the wallet, decode the
    transfers, drop replayed cash notes, notify and deposit, then check
    royalties, quote and sufficiency. -/
def payment_for_us_exists_and_is_still_valid (env : Env)
    (address : NetworkAddress) (payment : Payment) :
    Except Error Unit × List Effect :=
  let key := address.to_record_key
  match env.walletLoad with
  | .error e => (.error (.wallet e), [])
  | .ok _balance =>
    match cash_notes_from_transfers env payment.transfers key with
    | (.error e, tr) => (.error e, tr)
    | (.ok (received_fee, cash_notes, royalties), tr) =>
      let (r, tr2) :=
        paymentAfterDecode env address payment received_fee cash_notes
          royalties
      (r, tr ++ tr2)

/-- validate_key_and_existence: derive the canonical key from the
    address, reject a mismatching expected key, then ask the local store
    for presence. -/
def validate_key_and_existence (env : Env) (address : NetworkAddress)
    (expected_record_key : Key) : Except Error Bool × List Effect :=
  let data_key := address.to_record_key
  if expected_record_key ≠ data_key then (.error .recordKeyMismatch, [])
  else
    match env.presentLocally data_key with
    | .error e => (.error (.network e), [.presenceCheck data_key])
    | .ok b => (.ok b, [.presenceCheck data_key])

/-- store_chunk: serialize the chunk, write the record to the local
    store, broadcast the ChunkStored event. -/
def store_chunk (env : Env) (chunk : Chunk) :
    Except Error Unit × List Effect :=
  let key := chunk.network_address.to_record_key
  match env.serializeChunk chunk with
  | .error e => (.error (.serialization e), [])
  | .ok _bytes =>
    (.ok (),
      [.putLocalRecord { key := key, value := .chunk chunk },
        .chunkStoredEvent chunk.name])

/-- register_validation: verify the incoming register; when a local copy
    is present, load it, merge the incoming one into it and report none
    when the merge equals the local copy. -/
def register_validation (env : Env) (register : SignedRegister)
    (present_locally : Bool) :
    Except Error (Option SignedRegister) × List Effect :=
  match env.registerVerify register with
  | .error e => (.error (.register e), [])
  | .ok () =>
    if !present_locally then (.ok (some register), [])
    else
      let key := register.record_key
      match env.getLocalRecord key with
      | .error e => (.error (.network e), [.localRecordGet key])
      | .ok none => (.error (.invalidRequest 2), [.localRecordGet key])
      | .ok (some record) =>
        match deserializeRegister record.value with
        | .error e => (.error e, [.localRecordGet key])
        | .ok local_register =>
          match env.verifiedMerge local_register register with
          | .error e => (.error (.register e), [.localRecordGet key])
          | .ok merged_register =>
            if merged_register = local_register then
              (.ok none, [.localRecordGet key])
            else (.ok (some merged_register), [.localRecordGet key])

/-- validate_and_store_register: check local presence, run
    register_validation, then either notify the fetcher (no change) or
    write the merged register and, on the paid path, trigger outbound
    replication. -/
def validate_and_store_register (env : Env) (register : SignedRegister)
    (with_payment : Bool) : Except Error Unit × List Effect :=
  let key := register.record_key
  match env.presentLocally key with
  | .error e => (.error (.network e), [.presenceCheck key])
  | .ok present_locally =>
    match register_validation env register present_locally with
    | (.error e, tr) => (.error e, .presenceCheck key :: tr)
    | (.ok none, tr) =>
      (.ok (), .presenceCheck key :: tr ++ [.notifyFetchCompleted key])
    | (.ok (some updated_register), tr) =>
      match env.serializeRegister updated_register with
      | .error e => (.error (.serialization e), .presenceCheck key :: tr)
      | .ok bytes =>
        let record : Record := { key := key, value := .register updated_register }
        let content_hash := env.hashBytes bytes
        let tr2 := Effect.presenceCheck key :: tr ++ [Effect.putLocalRecord record]
        if with_payment then
          (.ok (), tr2 ++ [.replicateNonChunk key content_hash])
        else (.ok (), tr2)

/-- get_local_spends: fetch the local record at the spend address, check
    its header kind, deserialize the spends; absence yields the empty
    list. -/
def get_local_spends (env : Env) (addr : Nat) :
    Except Error (List SignedSpend) × List Effect :=
  let record_key := (NetworkAddress.spend addr).to_record_key
  match env.getLocalRecord record_key with
  | .error e => (.error (.network e), [.localRecordGet record_key])
  | .ok none => (.ok [], [.localRecordGet record_key])
  | .ok (some local_record) =>
    match recordHeaderKind local_record.value with
    | .error e => (.error e, [.localRecordGet record_key])
    | .ok kind =>
      if kind ≠ .Spend then
        (.error (.recordKindMismatch .Spend), [.localRecordGet record_key])
      else
        match deserializeSpends local_record.value with
        | .error e => (.error e, [.localRecordGet record_key])
        | .ok local_signed_spends =>
          (.ok local_signed_spends, [.localRecordGet record_key])

/-- get_raw_signed_spends_from_record (sn_networking): deserialize a
    record fetched from the network into its spends. -/
def rawSpendsFromRecord (r : Record) : Except Error (List SignedSpend) :=
  deserializeSpends r.value

/-- The network-spend collection step of signed_spends_to_keep: every
    fetch outcome degrades to a (possibly empty) list of spends, never
    to an error. -/
def collectNetworkSpends (env : Env) (addr : Nat) : List SignedSpend :=
  match env.getRawSpends addr with
  | .ok spends => spends
  | .recordNotFound => []
  | .splitRecord records =>
    records.foldl
      (fun acc r =>
        match rawSpendsFromRecord r with
        | .ok s => acc ++ s
        | .error _ => acc)
      []
  | .notEnoughCopies record _got =>
    match rawSpendsFromRecord record with
    | .ok spends => spends
    | .error _ => []
  | .otherError _ => []

/-- Insertion into the ordered set of signed spends (BTreeSet): keeps the
    list strictly sorted in the spendLt order, ignoring duplicates. -/
def insertSpend (s : SignedSpend) : List SignedSpend → List SignedSpend
  | [] => [s]
  | t :: ts =>
    if s = t then t :: ts
    else if spendLt s t then s :: t :: ts
    else t :: insertSpend s ts

/-- BTreeSet::from_iter over a list of spends. -/
def spendSetOf (l : List SignedSpend) : List SignedSpend :=
  l.foldl (fun acc s => insertSpend s acc) []

/-- The verification loop of signed_spends_to_keep over the incoming and
    network spends: verify each, insert the successes into the ordered
    set, record whether any verification reported a double-spent parent;
    verification failures skip the spend. -/
def verifyLoop (env : Env) :
    List SignedSpend → List SignedSpend → Bool →
    (List SignedSpend × Bool) × List Effect
  | [], acc, flag => ((acc, flag), [])
  | s :: rest, acc, flag =>
    match env.verifySpend s with
    | .ok vok =>
      let flag2 := flag || (vok = SpendVerificationOk.parentDoubleSpend)
      let (r, tr) := verifyLoop env rest (insertSpend s acc) flag2
      (r, .spendVerify s :: tr)
    | .error _ =>
      let (r, tr) := verifyLoop env rest acc flag
      (r, .spendVerify s :: tr)

/-- The cap tests of signed_spends_to_keep: the local spend count has
    reached MAX_DOUBLE_SPEND_ATTEMPTS_TO_KEEP_FROM_PUTS, or the local
    serialized size has reached half a packet while holding more than
    one spend. -/
def spendCapsReached (local_spends : List SignedSpend)
    (size_of_local_spends : Nat) : Bool :=
  decide (local_spends.length ≥ MAX_DOUBLE_SPEND_ATTEMPTS_TO_KEEP_FROM_PUTS) ||
    (decide (size_of_local_spends ≥ MAX_PACKET_SIZE / 2) &&
      decide (local_spends.length > 1))

/-- signed_spends_to_keep: fetch the local spends; when the caps are
    reached on the PUT path return them verbatim; otherwise fetch the
    peer copies, verify everything, apply the parent-double-spend policy
    and cap the ordered set at MAX_DOUBLE_SPEND_ATTEMPTS_TO_KEEP_PER_RECORD. -/
def signed_spends_to_keep (env : Env) (signed_spends : List SignedSpend)
    (unique_pubkey : Nat) (from_put : Bool) :
    Except Error (List SignedSpend) × List Effect :=
  let spend_addr := spendAddrOfPk unique_pubkey
  match get_local_spends env spend_addr with
  | (.error e, tr) => (.error e, tr)
  | (.ok local_spends, tr) =>
    match env.serializeSpends local_spends with
    | .error e => (.error (.serialization e), tr)
    | .ok bytes =>
      if spendCapsReached local_spends bytes.length && from_put then
        (.ok local_spends, tr)
      else
        let network_spends := collectNetworkSpends env spend_addr
        let tr := tr ++ [Effect.networkSpendFetch spend_addr]
        match
          verifyLoop env (signed_spends ++ network_spends)
            (spendSetOf local_spends) false with
        | ((all_verified_spends, parent_is_a_double_spend), trv) =>
          let tr := tr ++ trv
          if parent_is_a_double_spend && all_verified_spends.length = 1 then
            (.error (.transfers .invalidParentSpend), tr)
          else
            let verified_spends :=
              all_verified_spends.take MAX_DOUBLE_SPEND_ATTEMPTS_TO_KEEP_PER_RECORD
            match verified_spends with
            | [] => (.error (.invalidRequest 1), tr)
            | _ => (.ok verified_spends, tr)

/-- validate_merge_and_store_spends: key-filter the incoming spends,
    take the shared unique public key from the first survivor, run
    signed_spends_to_keep, then serialize and write the validated set
    under the record key. -/
def validate_merge_and_store_spends (env : Env)
    (signed_spends : List SignedSpend) (record_key : Key)
    (from_put : Bool) : Except Error Unit × List Effect :=
  let spends_for_key :=
    signed_spends.filter (fun s => s.record_key = record_key)
  match spends_for_key with
  | [] => (.error (.invalidRequest 0), [])
  | a :: _ =>
    let unique_pubkey := a.pk
    match signed_spends_to_keep env spends_for_key unique_pubkey from_put with
    | (.error e, tr) => (.error e, tr)
    | (.ok validated_spends, tr) =>
      match env.serializeSpends validated_spends with
      | .error e => (.error (.serialization e), tr)
      | .ok _bytes =>
        (.ok (),
          tr ++
            [.putLocalRecord
                { key := record_key, value := .spends validated_spends }])

/-- validate_and_store_record: the client-facing router.  Parses the
    header, notifies the replication fetcher, and dispatches by kind. -/
def validate_and_store_record (env : Env) (record : Record) :
    Except Error Unit × List Effect :=
  match recordHeaderKind record.value with
  | .error e => (.error e, [])
  | .ok kind =>
    let tr0 := [Effect.notifyFetchCompleted record.key]
    match kind with
    | .ChunkWithPayment =>
      match deserializeChunkWithPayment record.value with
      | .error e => (.error e, tr0)
      | .ok (payment, chunk) =>
        let record_key := record.key
        match validate_key_and_existence env chunk.network_address record_key with
        | (.error e, tr) => (.error e, tr0 ++ tr)
        | (.ok already_exists, tr) =>
          let (payment_res, trp) :=
            payment_for_us_exists_and_is_still_valid env
              chunk.network_address payment
          let tr := tr0 ++ tr ++ trp
          if already_exists then
            (.ok (), tr ++ [.replicateChunk record_key])
          else
            match payment_res with
            | .error e => (.error e, tr)
            | .ok () =>
              match store_chunk env chunk with
              | (.ok (), trs) =>
                (.ok (), tr ++ trs ++ [.replicateChunk record_key])
              | (.error e, trs) => (.error e, tr ++ trs)
    | .Chunk => (.error (.invalidPutWithoutPayment record.key), tr0)
    | .Spend =>
      match deserializeSpends record.value with
      | .error e => (.error e, tr0)
      | .ok spends =>
        let record_key := record.key
        let value_to_hash := record.value
        match validate_merge_and_store_spends env spends record_key true with
        | (.ok (), tr) =>
          let content_hash := env.hashValue value_to_hash
          (.ok (),
            tr0 ++ tr ++ [.replicateNonChunk record_key content_hash])
        | (.error e, tr) => (.error e, tr0 ++ tr)
    | .Register =>
      match deserializeRegister record.value with
      | .error e => (.error e, tr0)
      | .ok register =>
        let net_addr := NetworkAddress.register register.addr
        let key := net_addr.to_record_key
        match validate_key_and_existence env net_addr key with
        | (.error e, tr) => (.error e, tr0 ++ tr)
        | (.ok false, tr) =>
          (.error (.invalidPutWithoutPayment record.key), tr0 ++ tr)
        | (.ok true, tr) =>
          let (r, trr) := validate_and_store_register env register true
          (r, tr0 ++ tr ++ trr)
    | .RegisterWithPayment =>
      match deserializeRegisterWithPayment record.value with
      | .error e => (.error e, tr0)
      | .ok (payment, register) =>
        let net_addr := NetworkAddress.register register.addr
        let key := net_addr.to_record_key
        if record.key ≠ key then (.error .recordKeyMismatch, tr0)
        else
          match validate_key_and_existence env net_addr key with
          | (.error e, tr) => (.error e, tr0 ++ tr)
          | (.ok already_exists, tr) =>
            let (payment_res, trp) :=
              payment_for_us_exists_and_is_still_valid env net_addr payment
            match payment_res with
            | .error err =>
              if already_exists then
                let (r, trr) := validate_and_store_register env register true
                (r, tr0 ++ tr ++ trp ++ trr)
              else (.error err, tr0 ++ tr ++ trp)
            | .ok () =>
              let (r, trr) := validate_and_store_register env register true
              (r, tr0 ++ tr ++ trp ++ trr)

/-- store_replicated_in_record: the replication-facing router.  Rejects
    paid kinds, stores chunks when absent, merges registers after a key
    check, and validates spends with from_put set to false. -/
def store_replicated_in_record (env : Env) (record : Record) :
    Except Error Unit × List Effect :=
  match recordHeaderKind record.value with
  | .error e => (.error e, [])
  | .ok kind =>
    match kind with
    | .ChunkWithPayment =>
      (.error (.unexpectedRecordWithPayment record.key), [])
    | .RegisterWithPayment =>
      (.error (.unexpectedRecordWithPayment record.key), [])
    | .Chunk =>
      match deserializeChunk record.value with
      | .error e => (.error e, [])
      | .ok chunk =>
        let record_key := record.key
        match validate_key_and_existence env chunk.network_address record_key with
        | (.error e, tr) => (.error e, tr)
        | (.ok true, tr) => (.ok (), tr)
        | (.ok false, tr) =>
          let (r, trs) := store_chunk env chunk
          (r, tr ++ trs)
    | .Spend =>
      match deserializeSpends record.value with
      | .error e => (.error e, [])
      | .ok spends =>
        validate_merge_and_store_spends env spends record.key false
    | .Register =>
      match deserializeRegister record.value with
      | .error e => (.error e, [])
      | .ok register =>
        let key := register.record_key
        if record.key ≠ key then (.error .recordKeyMismatch, [])
        else validate_and_store_register env register false

instance {ε α : Type} [DecidableEq ε] [DecidableEq α] :
    DecidableEq (Except ε α) := fun a b =>
  match a, b with
  | .error e1, .error e2 =>
    if h : e1 = e2 then isTrue (by rw [h])
    else isFalse (by intro hc; injection hc; contradiction)
  | .error _, .ok _ => isFalse (by intro hc; exact Except.noConfusion hc)
  | .ok _, .error _ => isFalse (by intro hc; exact Except.noConfusion hc)
  | .ok a1, .ok a2 =>
    if h : a1 = a2 then isTrue (by rw [h])
    else isFalse (by intro hc; injection hc; contradiction)

/-- The errors the transfer-decoding loop can produce: collaborator
    errors, cash-note value errors, checked-addition overflow. -/
def isPaymentLoopError : Error → Prop
  | .network _ => True
  | .transfers _ => True
  | .numericOverflow => True
  | _ => False

/-- The errors cash_notes_from_transfers can produce: loop errors or the
    absence of any cash note for this node. -/
def isCashNotesError : Error → Prop
  | .network _ => True
  | .transfers _ => True
  | .numericOverflow => True
  | .noPaymentToOurNode _ => True
  | _ => False

/-- The pure result of fetching the local spends at an address. -/
def localSpendsOf (env : Env) (addr : Nat) :
    Except Error (List SignedSpend) :=
  (get_local_spends env addr).1

/-- A neutral environment for concrete executions: every collaborator
    call succeeds with the most inert answer. -/
def baseEnv : Env where
  walletLoad := .ok 0
  confirmedSpend := fun _ => .ok false
  depositResult := fun _ => .ok ()
  verifyTransfer := fun _ => .error .failedToDecypher
  verifyRedemptions := fun _ => .ok []
  verifyQuote := fun _ _ => .ok ()
  presentLocally := fun _ => .ok false
  getLocalRecord := fun _ => .ok none
  getRawSpends := fun _ => .recordNotFound
  verifySpend := fun _ => .ok .valid
  registerVerify := fun _ => .ok ()
  verifiedMerge := fun l _ => .ok l
  serializeSpends := fun _ => .ok []
  serializeRegister := fun _ => .ok []
  serializeChunk := fun _ => .ok []
  hashBytes := fun _ => 0
  hashValue := fun _ => 0

/-- A paid chunk record at the canonical key of chunk 7, with an empty
    (hence invalid) payment. -/
def recC1 : Record :=
  { key := Nat.pair 0 7,
    value := .chunkWithPayment { transfers := [], quote := { cost := 0 } }
      { name := 7 } }

/-- Environment in which every record is already present locally. -/
def envC1 : Env := { baseEnv with presentLocally := fun _ => .ok true }

/-- Environment paying 105 nanos to this node through one encrypted
    transfer. -/
def envC2 : Env :=
  { baseEnv with
    verifyTransfer := fun _ => .ok [{ pk := 1, amount := 105, valueErr := none }] }

/-- The spec example payment: quote cost 100, one transfer for us plus a
    royalty transfer. -/
def payC2 : Payment :=
  { transfers := [.encrypted 0, .networkRoyalties [7]], quote := { cost := 100 } }

/-- Environment where the only incoming cash note is already recorded as
    confirmed-spent in the wallet. -/
def envC3 : Env :=
  { baseEnv with
    verifyTransfer := fun _ => .ok [{ pk := 1, amount := 50, valueErr := none }],
    confirmedSpend := fun _ => .ok true }

/-- The payment reusing an already-spent cash note. -/
def payC3 : Payment := { transfers := [.encrypted 0], quote := { cost := 0 } }

/-- Fifteen distinct local double-spend attempts of public key 0. -/
def list15 : List SignedSpend :=
  (List.range MAX_DOUBLE_SPEND_ATTEMPTS_TO_KEEP_FROM_PUTS).map
    (fun i => { pk := 0, content := i })

/-- Environment whose local store already holds list15 under the spend
    key of public key 0. -/
def envC4 : Env :=
  { baseEnv with
    getLocalRecord := fun _ =>
      .ok (some { key := Nat.pair 2 0, value := .spends list15 }) }

/-- Environment where the network returns a spend of a foreign public
    key when asked for the spends of public key 0. -/
def envC5 : Env :=
  { baseEnv with getRawSpends := fun _ => .ok [{ pk := 1, content := 0 }] }

/-- Environment where every spend verification reports a double-spent
    parent. -/
def envC6 : Env :=
  { baseEnv with verifySpend := fun _ => .ok .parentDoubleSpend }

/-- As envC6, but the network also returns a second double-spend attempt
    of the same public key. -/
def envC6b : Env :=
  { baseEnv with
    verifySpend := fun _ => .ok .parentDoubleSpend,
    getRawSpends := fun _ => .ok [{ pk := 0, content := 1 }] }

/-- A register at address 0. -/
def regC7 : SignedRegister := { addr := 0, data := 0 }

/-- A paid-register record for regC7 at its canonical key, with an empty
    (hence invalid) payment. -/
def recC7 : Record :=
  { key := Nat.pair 1 0,
    value := .registerWithPayment { transfers := [], quote := { cost := 0 } }
      regC7 }

/-- Environment with the register present locally (so the payment error
    is suppressed): the local copy is regC7 itself and merging returns
    the local copy. -/
def envC7 : Env :=
  { baseEnv with
    presentLocally := fun _ => .ok true,
    getLocalRecord := fun _ =>
      .ok (some { key := Nat.pair 1 0, value := .register regC7 }) }

/-- Environment with no local copy of any record. -/
def envC7b : Env := baseEnv

/-- Environment for the no-change register PUT: the register is present
    locally and merging the incoming copy into it returns the local copy
    unchanged. -/
def envC8 : Env :=
  { baseEnv with
    presentLocally := fun _ => .ok true,
    getLocalRecord := fun _ =>
      .ok (some { key := Nat.pair 1 0, value := .register { addr := 0, data := 0 } }) }

/-- A plain chunk record at the canonical key of chunk 5. -/
def recC9 : Record := { key := Nat.pair 0 5, value := .chunk { name := 5 } }

/-- Environment where chunk 5 is already present locally. -/
def envC9 : Env := { baseEnv with presentLocally := fun _ => .ok true }

/-- An unpaid register record whose key field disagrees with the
    canonical key of its register payload. -/
def recC10 : Record := { key := 999, value := .register { addr := 0, data := 0 } }

lemma mem_insertSpend {a s : SignedSpend} {l : List SignedSpend} :
    a ∈ insertSpend s l ↔ a = s ∨ a ∈ l := by
  induction l with
  | nil => simp [insertSpend]
  | cons t ts ih =>
    simp only [insertSpend]
    split_ifs with h1 h2
    · subst h1
      simp only [List.mem_cons]
      tauto
    · simp only [List.mem_cons]
    · simp only [List.mem_cons, ih]
      tauto

lemma mem_foldl_insertSpend {a : SignedSpend} :
    ∀ {l init : List SignedSpend},
      a ∈ l.foldl (fun acc s => insertSpend s acc) init →
        a ∈ init ∨ a ∈ l := by
  intro l
  induction l with
  | nil => intro init h; exact Or.inl h
  | cons t ts ih =>
    intro init h
    rcases ih h with h2 | h2
    · rcases mem_insertSpend.mp h2 with h3 | h3
      · exact Or.inr (by simp [h3])
      · exact Or.inl h3
    · exact Or.inr (List.mem_cons_of_mem _ h2)

lemma mem_spendSetOf {a : SignedSpend} {l : List SignedSpend}
    (h : a ∈ spendSetOf l) : a ∈ l := by
  rcases mem_foldl_insertSpend h with h2 | h2
  · simp at h2
  · exact h2

lemma verifyLoop_trace_shape (env : Env) :
    ∀ (todo acc : List SignedSpend) (flag : Bool) (e : Effect),
      e ∈ (verifyLoop env todo acc flag).2 → ∃ s, e = .spendVerify s := by
  intro todo
  induction todo with
  | nil => intro acc flag e h; simp [verifyLoop] at h
  | cons s rest ih =>
    intro acc flag e h
    simp only [verifyLoop] at h
    rcases h2 : env.verifySpend s with e2 | vok <;> rw [h2] at h <;>
      simp only [List.mem_cons] at h <;>
      rcases h with h | h
    · exact ⟨s, h⟩
    · exact ih _ _ _ h
    · exact ⟨s, h⟩
    · exact ih _ _ _ h

lemma verifyLoop_mem (env : Env) :
    ∀ (todo acc : List SignedSpend) (flag : Bool) (a : SignedSpend),
      a ∈ (verifyLoop env todo acc flag).1.1 → a ∈ acc ∨ a ∈ todo := by
  intro todo
  induction todo with
  | nil => intro acc flag a h; simp [verifyLoop] at h; exact Or.inl h
  | cons s rest ih =>
    intro acc flag a h
    simp only [verifyLoop] at h
    rcases h2 : env.verifySpend s with e2 | vok <;> rw [h2] at h
    · rcases ih _ _ _ h with h3 | h3
      · exact Or.inl h3
      · exact Or.inr (List.mem_cons_of_mem _ h3)
    · rcases ih _ _ _ h with h3 | h3
      · rcases mem_insertSpend.mp h3 with h4 | h4
        · exact Or.inr (by simp [h4])
        · exact Or.inl h4
      · exact Or.inr (List.mem_cons_of_mem _ h3)

lemma get_local_spends_trace (env : Env) (addr : Nat) :
    (get_local_spends env addr).2 =
      [.localRecordGet ((NetworkAddress.spend addr).to_record_key)] := by
  unfold get_local_spends
  rcases h : env.getLocalRecord ((NetworkAddress.spend addr).to_record_key) with
    e | r
  · simp [h]
  · rcases r with _ | r
    · simp [h]
    · simp only [h]
      rcases h2 : recordHeaderKind r.value with e | k
      · simp [h2]
      · rcases h3 : deserializeSpends r.value with e | l <;>
          by_cases h4 : k = RecordKind.Spend <;> simp [h2, h3, h4]

lemma cashNoteValue_error_shape {cn : CashNote} {e : Error}
    (h : cashNoteValue cn = .error e) : ∃ te, e = .transfers te := by
  unfold cashNoteValue at h
  rcases h2 : cn.valueErr with _ | te <;> rw [h2] at h
  · exact absurd h (by simp)
  · exact ⟨te, by injection h with h3; exact h3.symm⟩

lemma totalCashNotesGo_error_shape :
    ∀ (notes : List CashNote) (acc : Nat) (e : Error),
      totalCashNotesGo acc notes = .error e → isPaymentLoopError e := by
  intro notes
  induction notes with
  | nil => intro acc e h; simp [totalCashNotesGo] at h
  | cons cn rest ih =>
    intro acc e h
    simp only [totalCashNotesGo] at h
    rcases h2 : cashNoteValue cn with e2 | v <;> simp only [h2] at h
    · injection h with h3
      subst h3
      rcases cashNoteValue_error_shape h2 with ⟨te, h4⟩
      subst h4
      simp [isPaymentLoopError]
    · rcases h3 : checked_add acc v with _ | s <;> simp only [h3] at h
      · injection h with h4
        subst h4
        simp [isPaymentLoopError]
      · exact ih s e h

lemma total_cash_notes_amount_error_shape {notes : List CashNote} {e : Error}
    (h : total_cash_notes_amount notes = .error e) : isPaymentLoopError e :=
  totalCashNotesGo_error_shape notes 0 e h

lemma cashNotesLoop_error_shape (env : Env) :
    ∀ (ts : List Transfer) (fee : Nat) (notes : List CashNote)
      (roys : List Nat) (e : Error),
      (cashNotesLoop env ts fee notes roys).1 = .error e →
        isPaymentLoopError e := by
  intro ts
  induction ts with
  | nil => intro fee notes roys e h; simp [cashNotesLoop] at h
  | cons t rest ih =>
    intro fee notes roys e h
    rcases t with blob | reds
    · simp only [cashNotesLoop] at h
      rcases h2 : env.verifyTransfer blob with ne | cns <;> simp only [h2] at h
      · rcases ne with _ | code
        · exact ih _ _ _ _ h
        · injection h with h3
          subst h3
          simp [isPaymentLoopError]
      · exact ih _ _ _ _ h
    · simp only [cashNotesLoop] at h
      rcases h2 : env.verifyRedemptions reds with ne | cns <;> simp only [h2] at h
      · exact ih _ _ _ _ h
      · rcases h3 : total_cash_notes_amount cns with e2 | amt <;> simp only [h3] at h
        · injection h with h4
          subst h4
          exact total_cash_notes_amount_error_shape h3
        · rcases h4 : checked_add fee amt with _ | fee2 <;> simp only [h4] at h
          · injection h with h5
            subst h5
            simp [isPaymentLoopError]
          · exact ih _ _ _ _ h

lemma cash_notes_from_transfers_error_shape {env : Env}
    {ts : List Transfer} {key : Key} {e : Error}
    (h : (cash_notes_from_transfers env ts key).1 = .error e) :
    isCashNotesError e := by
  unfold cash_notes_from_transfers at h
  rcases h2 : cashNotesLoop env ts 0 [] [] with ⟨r, tr⟩
  simp only [h2] at h
  rcases r with e2 | ⟨fee, cash_notes, roys⟩
  · simp only at h
    injection h with h3
    have h4 := cashNotesLoop_error_shape env ts 0 [] [] e2 (by rw [h2])
    rw [← h3]
    rcases e2 <;> simp_all [isPaymentLoopError, isCashNotesError]
  · simp only at h
    rcases cash_notes with _ | ⟨cn, rest⟩
    · injection h with h3
      subst h3
      simp [isCashNotesError]
    · rcases h3 : total_cash_notes_amount (cn :: rest) with e2 | toUs <;>
        simp only [h3] at h
      · injection h with h4
        have h5 := total_cash_notes_amount_error_shape h3
        rw [← h4]
        rcases e2 <;> simp_all [isPaymentLoopError, isCashNotesError]
      · rcases h4 : checked_add fee toUs with _ | fee2 <;> simp only [h4] at h
        · injection h with h5
          subst h5
          simp [isCashNotesError]
        · simp at h

lemma cash_notes_from_transfers_ok_nonempty {env : Env}
    {ts : List Transfer} {key : Key} {fee : Nat} {notes : List CashNote}
    {roys : List Nat}
    (h : (cash_notes_from_transfers env ts key).1 = .ok (fee, notes, roys)) :
    notes ≠ [] := by
  unfold cash_notes_from_transfers at h
  rcases h2 : cashNotesLoop env ts 0 [] [] with ⟨r, tr⟩
  simp only [h2] at h
  rcases r with e2 | ⟨fee2, cash_notes, roys2⟩
  · simp at h
  · simp only at h
    rcases cash_notes with _ | ⟨cn, rest⟩
    · simp at h
    · rcases h3 : total_cash_notes_amount (cn :: rest) with e2 | toUs <;>
        simp only [h3] at h
      · simp at h
      · rcases h4 : checked_add fee2 toUs with _ | fee3 <;> simp only [h4] at h
        · simp at h
        · injection h with h5
          rw [Prod.mk.injEq, Prod.mk.injEq] at h5
          intro hc
          rw [hc] at h5
          exact List.cons_ne_nil cn rest h5.2.1

lemma cashNotesLoop_trace_shape (env : Env) :
    ∀ (ts : List Transfer) (fee : Nat) (notes : List CashNote)
      (roys : List Nat) (e : Effect),
      e ∈ (cashNotesLoop env ts fee notes roys).2 →
        (∃ b, e = .transferVerify b) ∨ ∃ r, e = .royaltyVerify r := by
  intro ts
  induction ts with
  | nil => intro fee notes roys e h; simp [cashNotesLoop] at h
  | cons t rest ih =>
    intro fee notes roys e h
    rcases t with blob | reds
    · simp only [cashNotesLoop] at h
      rcases h2 : env.verifyTransfer blob with ne | cns <;> simp only [h2] at h
      · rcases ne with _ | code
        · rcases List.mem_cons.mp h with h3 | h3
          · exact Or.inl ⟨blob, h3⟩
          · exact ih _ _ _ _ h3
        · rcases List.mem_singleton.mp h with h3
          exact Or.inl ⟨blob, h3⟩
      · rcases List.mem_cons.mp h with h3 | h3
        · exact Or.inl ⟨blob, h3⟩
        · exact ih _ _ _ _ h3
    · simp only [cashNotesLoop] at h
      rcases h2 : env.verifyRedemptions reds with ne | cns <;> simp only [h2] at h
      · rcases List.mem_cons.mp h with h3 | h3
        · exact Or.inr ⟨reds, h3⟩
        · exact ih _ _ _ _ h3
      · rcases h3 : total_cash_notes_amount cns with e2 | amt <;> simp only [h3] at h
        · rcases List.mem_singleton.mp h with h4
          exact Or.inr ⟨reds, h4⟩
        · rcases h4 : checked_add fee amt with _ | fee2 <;> simp only [h4] at h
          · rcases List.mem_singleton.mp h with h5
            exact Or.inr ⟨reds, h5⟩
          · rcases List.mem_cons.mp h with h5 | h5
            · exact Or.inr ⟨reds, h5⟩
            · exact ih _ _ _ _ h5

lemma cash_notes_from_transfers_trace_shape {env : Env}
    {ts : List Transfer} {key : Key} {e : Effect}
    (h : e ∈ (cash_notes_from_transfers env ts key).2) :
    (∃ b, e = .transferVerify b) ∨ ∃ r, e = .royaltyVerify r := by
  unfold cash_notes_from_transfers at h
  rcases h2 : cashNotesLoop env ts 0 [] [] with ⟨r, tr⟩
  simp only [h2] at h
  have htr : e ∈ tr → (∃ b, e = .transferVerify b) ∨ ∃ r, e = .royaltyVerify r := by
    intro h3
    have := cashNotesLoop_trace_shape env ts 0 [] [] e (by rw [h2]; exact h3)
    exact this
  rcases r with e2 | ⟨fee, cash_notes, roys⟩
  · exact htr h
  · simp only at h
    rcases cash_notes with _ | ⟨cn, rest⟩
    · exact htr h
    · rcases h3 : total_cash_notes_amount (cn :: rest) with e2 | toUs <;>
        simp only [h3] at h
      · exact htr h
      · rcases h4 : checked_add fee toUs with _ | fee2 <;> simp only [h4] at h
        · exact htr h
        · exact htr h

lemma paymentAfterDecode_trace_shape {env : Env} {address : NetworkAddress}
    {payment : Payment} {fee : Nat} {notes : List CashNote} {roys : List Nat}
    {e : Effect}
    (h : e ∈ (paymentAfterDecode env address payment fee notes roys).2) :
    e = .notifyPaymentReceived ∨ ∃ kept, e = .depositToWallet kept := by
  unfold paymentAfterDecode at h
  rcases h2 : notes.filter (fun cn => !alreadySpent env cn) with _ | ⟨k, ks⟩ <;>
    simp only [h2] at h
  · simp at h
  · rcases h3 : env.depositResult (k :: ks) with e2 | u <;> simp only [h3] at h
    · rcases List.mem_cons.mp h with h4 | h4
      · exact Or.inl h4
      · exact Or.inr ⟨k :: ks, List.mem_singleton.mp h4⟩
    · have hshape : e ∈ [Effect.notifyPaymentReceived,
          Effect.depositToWallet (k :: ks)] →
            (e = Effect.notifyPaymentReceived ∨
              ∃ kept, e = Effect.depositToWallet kept) := fun h4 =>
        (List.mem_cons.mp h4).elim Or.inl
          (fun h5 => Or.inr ⟨k :: ks, List.mem_singleton.mp h5⟩)
    -- continue by cases on the remaining branches, all of which return
    -- the same two-effect trace
      rcases roys with _ | ⟨r0, rs⟩
      · exact hshape h
      · rcases h4 : env.verifyQuote payment.quote address with e2 | u2 <;>
          simp only [h4] at h
        · exact hshape h
        · rcases h5 : checked_add payment.quote.cost
              (calculate_royalties_fee payment.quote.cost) with _ | ef <;>
            simp only [h5] at h
          · exact hshape h
          · by_cases h6 : fee < ef <;> simp only [h6, if_pos, if_neg,
              not_false_eq_true] at h <;> exact hshape h

lemma payment_trace_no_put {env : Env} {address : NetworkAddress}
    {payment : Payment} (r : Record) :
    Effect.putLocalRecord r ∉
      (payment_for_us_exists_and_is_still_valid env address payment).2 := by
  intro h
  unfold payment_for_us_exists_and_is_still_valid at h
  rcases h1 : env.walletLoad with e | bal <;> simp only [h1] at h
  · simp at h
  · rcases h2 : cash_notes_from_transfers env payment.transfers
        address.to_record_key with ⟨r2, tr⟩
    simp only [h2] at h
    rcases r2 with e2 | ⟨fee, notes, roys⟩
    · simp only at h
      rcases cash_notes_from_transfers_trace_shape (by rw [h2]; exact h) with
        ⟨b, hb⟩ | ⟨rr, hr⟩ <;> simp_all
    · simp only at h
      rcases List.mem_append.mp h with h3 | h3
      · rcases cash_notes_from_transfers_trace_shape (by rw [h2]; exact h3) with
          ⟨b, hb⟩ | ⟨rr, hr⟩ <;> simp_all
      · rcases paymentAfterDecode_trace_shape h3 with h4 | ⟨kept, h4⟩ <;>
          simp at h4

lemma signed_spends_to_keep_trace_shape {env : Env}
    {spends : List SignedSpend} {pk : Nat} {fp : Bool} {e : Effect}
    (h : e ∈ (signed_spends_to_keep env spends pk fp).2) :
    (∃ k, e = .localRecordGet k) ∨ (∃ a, e = .networkSpendFetch a) ∨
      ∃ s, e = .spendVerify s := by
  unfold signed_spends_to_keep at h
  rcases h1 : get_local_spends env (spendAddrOfPk pk) with ⟨res, tr⟩
  simp only [h1] at h
  have htr : e ∈ tr → ∃ k, e = Effect.localRecordGet k := by
    intro h5
    have h6 := get_local_spends_trace env (spendAddrOfPk pk)
    rw [h1] at h6
    simp only at h6
    rw [h6] at h5
    exact ⟨_, List.mem_singleton.mp h5⟩
  rcases res with e2 | locals
  · exact Or.inl (htr h)
  · rcases h2 : env.serializeSpends locals with e2 | bytes <;>
      simp only [h2] at h
    · exact Or.inl (htr h)
    · split at h
      · exact Or.inl (htr h)
      · rcases h4 : verifyLoop env
            (spends ++ collectNetworkSpends env (spendAddrOfPk pk))
            (spendSetOf locals) false with ⟨⟨allv, flag⟩, trv⟩
        simp only [h4] at h
        have hfin : e ∈ (tr ++ [Effect.networkSpendFetch (spendAddrOfPk pk)]) ++ trv →
            (∃ k, e = Effect.localRecordGet k) ∨
              (∃ a, e = Effect.networkSpendFetch a) ∨
                ∃ s, e = Effect.spendVerify s := by
          intro h5
          rcases List.mem_append.mp h5 with h6 | h6
          · rcases List.mem_append.mp h6 with h7 | h7
            · exact Or.inl (htr h7)
            · exact Or.inr (Or.inl ⟨_, List.mem_singleton.mp h7⟩)
          · have h7 := verifyLoop_trace_shape env
              (spends ++ collectNetworkSpends env (spendAddrOfPk pk))
              (spendSetOf locals) false e (by rw [h4]; exact h6)
            exact Or.inr (Or.inr h7)
        split at h
        · exact hfin h
        · split at h
          · exact hfin h
          · exact hfin h

lemma signed_spends_to_keep_no_put {env : Env} {spends : List SignedSpend}
    {pk : Nat} {fp : Bool} (r : Record) :
    Effect.putLocalRecord r ∉ (signed_spends_to_keep env spends pk fp).2 := by
  intro h
  rcases signed_spends_to_keep_trace_shape h with ⟨k, hk⟩ | ⟨a, ha⟩ | ⟨s, hs⟩ <;>
    simp_all

lemma register_validation_ne_mismatch {env : Env} {reg : SignedRegister}
    {b : Bool} :
    (register_validation env reg b).1 ≠ .error .recordKeyMismatch := by
  intro h
  unfold register_validation at h
  rcases h1 : env.registerVerify reg with e | u <;> simp only [h1] at h
  · simp at h
  · by_cases h2 : b = true
    · subst h2
      simp only [Bool.not_true, reduceIte] at h
      rcases h3 : env.getLocalRecord reg.record_key with e | r2 <;>
        simp only [h3] at h
      · simp at h
      · rcases r2 with _ | r2
        · simp at h
        · simp only at h
          rcases h4 : deserializeRegister r2.value with e | lr <;>
            simp only [h4] at h
          · rcases h5 : r2.value with c | pc | rr | pr | l <;>
              simp [deserializeRegister, h5] at h4 <;> simp_all
          · rcases h5 : env.verifiedMerge lr reg with e | m <;>
              simp only [h5] at h
            · simp at h
            · by_cases h6 : m = lr <;> simp [h6] at h
    · have h2f : b = false := by
        rcases b <;> simp_all
      subst h2f
      simp at h

lemma validate_and_store_register_ne_mismatch {env : Env}
    {reg : SignedRegister} {wp : Bool} :
    (validate_and_store_register env reg wp).1 ≠ .error .recordKeyMismatch := by
  intro h
  unfold validate_and_store_register at h
  rcases h1 : env.presentLocally reg.record_key with e | present <;>
    simp only [h1] at h
  · simp at h
  · rcases h2 : register_validation env reg present with ⟨res, tr⟩
    simp only [h2] at h
    rcases res with e2 | o
    · simp only at h
      injection h with h3
      exact register_validation_ne_mismatch (by rw [h2, h3])
    · rcases o with _ | updated
      · simp at h
      · simp only at h
        rcases h3 : env.serializeRegister updated with e | bytes <;>
          simp only [h3] at h
        · simp at h
        · rcases wp <;> simp at h

/-- C1: a ChunkWithPayment record received on validate_and_store_record
    whose chunk is already present locally returns success regardless of
    the payment outcome, triggers outbound replication for the key,
    keeps the payment side effects (the payment trace is retained in the
    call trace), and never writes the chunk to the local record store. -/
theorem paid_chunk_already_exists_keeps_payment_and_replicates
    (env : Env) (record : Record) (p : Payment) (c : Chunk)
    (hv : record.value = .chunkWithPayment p c)
    (hk : record.key = c.network_address.to_record_key)
    (hp : env.presentLocally c.network_address.to_record_key = .ok true) :
    validate_and_store_record env record =
      (.ok (),
        .notifyFetchCompleted record.key ::
          .presenceCheck c.network_address.to_record_key ::
            (payment_for_us_exists_and_is_still_valid env
                c.network_address p).2 ++ [.replicateChunk record.key]) ∧
    ∀ r, Effect.putLocalRecord r ∉ (validate_and_store_record env record).2 := by
  have hmain : validate_and_store_record env record =
      (.ok (),
        .notifyFetchCompleted record.key ::
          .presenceCheck c.network_address.to_record_key ::
            (payment_for_us_exists_and_is_still_valid env
                c.network_address p).2 ++ [.replicateChunk record.key]) := by
    unfold validate_and_store_record
    simp only [hv, recordHeaderKind, deserializeChunkWithPayment]
    unfold validate_key_and_existence
    rw [hk]
    simp only [ne_eq, not_true_eq_false, reduceIte, hp]
    rcases hpe : payment_for_us_exists_and_is_still_valid env
        c.network_address p with ⟨pres, ptr⟩
    simp only [hpe, reduceIte]
    simp
  refine ⟨hmain, ?_⟩
  intro r hmem
  rw [hmain] at hmem
  simp only [List.mem_cons, List.mem_append, List.mem_singleton] at hmem
  rcases hmem with (h1 | h1 | h1) | h1
  · simp at h1
  · simp at h1
  · exact payment_trace_no_put r h1
  · simp at h1

/-- Witness for C1: concrete already-present chunk with a failing
    payment, evaluated. -/
theorem paid_chunk_already_exists_witness :
    validate_and_store_record envC1 recC1 =
      (.ok (),
        .notifyFetchCompleted recC1.key ::
          .presenceCheck (Chunk.network_address { name := 7 }).to_record_key ::
            (payment_for_us_exists_and_is_still_valid envC1
                (Chunk.network_address { name := 7 })
                { transfers := [], quote := { cost := 0 } }).2 ++
              [.replicateChunk recC1.key]) :=
  (paid_chunk_already_exists_keeps_payment_and_replicates envC1 recC1
      { transfers := [], quote := { cost := 0 } } { name := 7 }
      rfl rfl rfl).1

lemma paymentAfterDecode_insufficient_trace {env : Env}
    {address : NetworkAddress} {payment : Payment} {fee : Nat}
    {notes : List CashNote} {roys : List Nat} {paid expected : Nat}
    (h : (paymentAfterDecode env address payment fee notes roys).1 =
      .error (.paymentProofInsufficientAmount paid expected)) :
    ∃ ks, ks ≠ [] ∧
      (paymentAfterDecode env address payment fee notes roys).2 =
        [.notifyPaymentReceived, .depositToWallet ks] := by
  unfold paymentAfterDecode at h ⊢
  rcases h2 : notes.filter (fun cn => !alreadySpent env cn) with _ | ⟨k, ks⟩ <;>
    simp only [h2] at h ⊢
  · simp at h
  · rcases h3 : env.depositResult (k :: ks) with e2 | u <;> simp only [h3] at h ⊢
    · simp at h
    · refine ⟨k :: ks, by simp, ?_⟩
      rcases roys with _ | ⟨r0, rs⟩
      · rfl
      · rcases h4 : env.verifyQuote payment.quote address with e | u2 <;>
          (simp only [h4]; try rfl)
        all_goals
          rcases h5 : checked_add payment.quote.cost
              (calculate_royalties_fee payment.quote.cost) with _ | ef <;>
            (simp only [h5]; try rfl)
        all_goals by_cases h6 : fee < ef <;> simp [h6]

/-- C2: whenever payment_for_us_exists_and_is_still_valid returns
    PaymentProofInsufficientAmount, the payment-received notification and
    the wallet deposit of the surviving cash notes were already
    performed: the call trace ends with exactly the notification followed
    by the deposit, so the error rolls neither back. -/
theorem insufficient_payment_keeps_deposit_and_notification
    (env : Env) (address : NetworkAddress) (payment : Payment)
    (paid expected : Nat)
    (h : (payment_for_us_exists_and_is_still_valid env address payment).1 =
      .error (.paymentProofInsufficientAmount paid expected)) :
    ∃ pre notes, notes ≠ [] ∧
      (payment_for_us_exists_and_is_still_valid env address payment).2 =
        pre ++ [.notifyPaymentReceived, .depositToWallet notes] := by
  unfold payment_for_us_exists_and_is_still_valid at h ⊢
  rcases h1 : env.walletLoad with e | bal <;> simp only [h1] at h ⊢
  · simp at h
  · rcases h2 : cash_notes_from_transfers env payment.transfers
        address.to_record_key with ⟨r2, tr⟩
    simp only [h2] at h ⊢
    rcases r2 with e2 | ⟨fee, notes, roys⟩
    · simp only at h
      injection h with h3
      have h4 := cash_notes_from_transfers_error_shape (e := e2) (by rw [h2])
      rw [h3] at h4
      simp [isCashNotesError] at h4
    · simp only at h ⊢
      rcases paymentAfterDecode_insufficient_trace h with ⟨ks, hne, htr⟩
      exact ⟨tr, ks, hne, by rw [htr]⟩

/-- Witness for C2: the spec example (cost 100, paid 105, expected 110);
    the wallet is credited with the 105-nano cash note. -/
theorem insufficient_payment_witness :
    ∃ pre notes, notes ≠ [] ∧
      (payment_for_us_exists_and_is_still_valid envC2
          (NetworkAddress.chunk 7) payC2).2 =
        pre ++ [.notifyPaymentReceived, .depositToWallet notes] :=
  insufficient_payment_keeps_deposit_and_notification envC2
    (NetworkAddress.chunk 7) payC2 105 110 (by decide)

lemma paymentAfterDecode_reused_iff {env : Env} {address : NetworkAddress}
    {payment : Payment} {fee : Nat} {notes : List CashNote}
    {roys : List Nat} :
    (paymentAfterDecode env address payment fee notes roys).1 =
        .error .reusedPayment ↔
      notes.filter (fun cn => !alreadySpent env cn) = [] := by
  constructor
  · intro h
    unfold paymentAfterDecode at h
    rcases h2 : notes.filter (fun cn => !alreadySpent env cn) with _ | ⟨k, ks⟩ <;>
      simp only [h2] at h
    · rfl
    · exfalso
      rcases h3 : env.depositResult (k :: ks) with e2 | u <;>
        simp only [h3] at h
      · simp at h
      · rcases roys with _ | ⟨r0, rs⟩
        · simp at h
        · rcases h4 : env.verifyQuote payment.quote address with e | u2 <;>
            simp only [h4] at h <;> try simp at h
          all_goals
            rcases h5 : checked_add payment.quote.cost
                (calculate_royalties_fee payment.quote.cost) with _ | ef <;>
              simp only [h5] at h <;> try simp at h
          all_goals by_cases h6 : fee < ef <;> simp [h6] at h
  · intro h
    unfold paymentAfterDecode
    simp only [h]

/-- C3: payment_for_us_exists_and_is_still_valid returns ReusedPayment
    exactly when the wallet loaded, the transfer decoding succeeded with
    a non-empty list of cash notes for this node, and every decoded cash
    note has a spend address already confirmed spent in the wallet. -/
theorem reused_payment_iff_every_note_confirmed_spent
    (env : Env) (address : NetworkAddress) (payment : Payment) :
    (payment_for_us_exists_and_is_still_valid env address payment).1 =
        .error .reusedPayment ↔
      (∃ bal, env.walletLoad = .ok bal) ∧
      ∃ fee notes roys,
        (cash_notes_from_transfers env payment.transfers
            address.to_record_key).1 = .ok (fee, notes, roys) ∧
        notes ≠ [] ∧
        ∀ cn ∈ notes, env.confirmedSpend (spendAddrOfPk cn.pk) = .ok true := by
  constructor
  · intro h
    unfold payment_for_us_exists_and_is_still_valid at h
    rcases h1 : env.walletLoad with e | bal <;> simp only [h1] at h
    · simp at h
    · rcases h2 : cash_notes_from_transfers env payment.transfers
          address.to_record_key with ⟨r2, tr⟩
      simp only [h2] at h
      rcases r2 with e2 | ⟨fee, notes, roys⟩
      · simp only at h
        injection h with h3
        have h4 := cash_notes_from_transfers_error_shape (e := e2) (by rw [h2])
        rw [h3] at h4
        simp [isCashNotesError] at h4
      · simp only at h
        refine ⟨⟨bal, rfl⟩, fee, notes, roys, rfl,
          cash_notes_from_transfers_ok_nonempty (by rw [h2]), ?_⟩
        have hfilter := paymentAfterDecode_reused_iff.mp h
        intro cn hcn
        have h5 := (List.filter_eq_nil_iff.mp hfilter) cn hcn
        unfold alreadySpent at h5
        rcases h6 : env.confirmedSpend (spendAddrOfPk cn.pk) with e2 | b
        · rw [h6] at h5
          simp at h5
        · rw [h6] at h5
          rcases b
          · simp at h5
          · rfl
  · rintro ⟨⟨bal, h1⟩, fee, notes, roys, h2, hne, hall⟩
    unfold payment_for_us_exists_and_is_still_valid
    simp only [h1]
    rcases h2p : cash_notes_from_transfers env payment.transfers
        address.to_record_key with ⟨r2, tr⟩
    rw [h2p] at h2
    simp only at h2
    subst h2
    simp only [h2p]
    refine paymentAfterDecode_reused_iff.mpr ?_
    refine List.filter_eq_nil_iff.mpr ?_
    intro cn hcn
    simp [alreadySpent, hall cn hcn]

/-- Witness for C3: a payment whose only cash note is already confirmed
    spent yields ReusedPayment. -/
theorem reused_payment_witness :
    (payment_for_us_exists_and_is_still_valid envC3
        (NetworkAddress.chunk 7) payC3).1 = .error .reusedPayment :=
  (reused_payment_iff_every_note_confirmed_spent envC3
      (NetworkAddress.chunk 7) payC3).mpr
    ⟨⟨0, rfl⟩, 50, [{ pk := 1, amount := 50, valueErr := none }], [],
      by decide, by decide, by decide⟩

lemma verifyLoop_trace_mem (env : Env) :
    ∀ (todo acc : List SignedSpend) (flag : Bool) (s : SignedSpend),
      s ∈ todo →
        Effect.spendVerify s ∈ (verifyLoop env todo acc flag).2 := by
  intro todo
  induction todo with
  | nil => intro acc flag s h; simp at h
  | cons t rest ih =>
    intro acc flag s h
    simp only [verifyLoop]
    rcases h2 : env.verifySpend t with e | vok <;> simp only [h2] <;>
      rcases List.mem_cons.mp h with h3 | h3
    · subst h3
      simp
    · simp only [List.mem_cons]
      exact Or.inr (ih _ _ s h3)
    · subst h3
      simp
    · simp only [List.mem_cons]
      exact Or.inr (ih _ _ s h3)

/-- C4: in signed_spends_to_keep, when the local spend set has reached
    the length cap or the size cap, the PUT entry (from_put = true)
    returns the local set verbatim without fetching network spends or
    verifying any spend, while the replication entry (from_put = false)
    still fetches the network spends and verifies every incoming spend. -/
theorem spend_caps_short_circuit_put_only
    (env : Env) (spends : List SignedSpend) (pk : Nat)
    (local_spends : List SignedSpend) (bytes : Bytes)
    (h1 : (get_local_spends env (spendAddrOfPk pk)).1 = .ok local_spends)
    (h2 : env.serializeSpends local_spends = .ok bytes)
    (h3 : local_spends.length ≥ MAX_DOUBLE_SPEND_ATTEMPTS_TO_KEEP_FROM_PUTS ∨
      (bytes.length ≥ MAX_PACKET_SIZE / 2 ∧ local_spends.length > 1)) :
    ((signed_spends_to_keep env spends pk true).1 = .ok local_spends ∧
      (∀ a, Effect.networkSpendFetch a ∉
        (signed_spends_to_keep env spends pk true).2) ∧
      ∀ s, Effect.spendVerify s ∉
        (signed_spends_to_keep env spends pk true).2) ∧
    (Effect.networkSpendFetch (spendAddrOfPk pk) ∈
        (signed_spends_to_keep env spends pk false).2 ∧
      ∀ s ∈ spends, Effect.spendVerify s ∈
        (signed_spends_to_keep env spends pk false).2) := by
  have hcaps : spendCapsReached local_spends bytes.length = true := by
    unfold spendCapsReached
    rcases h3 with h | ⟨ha, hb⟩
    · simp [h]
    · simp [ha, hb]
  rcases hg : get_local_spends env (spendAddrOfPk pk) with ⟨res, tr⟩
  have htr : tr =
      [Effect.localRecordGet
        ((NetworkAddress.spend (spendAddrOfPk pk)).to_record_key)] := by
    have h4 := get_local_spends_trace env (spendAddrOfPk pk)
    rw [hg] at h4
    exact h4
  rw [hg] at h1
  simp only at h1
  subst h1
  have hput : signed_spends_to_keep env spends pk true =
      (.ok local_spends, tr) := by
    simp only [signed_spends_to_keep, hg]
    simp [h2, hcaps]
  constructor
  · refine ⟨by rw [hput], ?_, ?_⟩
    · intro a hmem
      rw [hput] at hmem
      simp only at hmem
      rw [htr] at hmem
      simp at hmem
    · intro s hmem
      rw [hput] at hmem
      simp only at hmem
      rw [htr] at hmem
      simp at hmem
  · rcases hv : verifyLoop env
        (spends ++ collectNetworkSpends env (spendAddrOfPk pk))
        (spendSetOf local_spends) false with ⟨⟨allv, flag⟩, trv⟩
    have hrepl : (signed_spends_to_keep env spends pk false).2 =
        (tr ++ [Effect.networkSpendFetch (spendAddrOfPk pk)]) ++ trv := by
      simp only [signed_spends_to_keep, hg]
      simp only [h2, Bool.and_false, Bool.false_eq_true, reduceIte, hv]
      split
      · rfl
      · split <;> rfl
    refine ⟨?_, ?_⟩
    · rw [hrepl]
      simp
    · intro s hs
      rw [hrepl]
      have h5 := verifyLoop_trace_mem env
        (spends ++ collectNetworkSpends env (spendAddrOfPk pk))
        (spendSetOf local_spends) false s (List.mem_append_left _ hs)
      rw [hv] at h5
      simp only at h5
      simp [h5]

/-- Witness for C4: an environment holding fifteen local double-spend
    attempts of public key 0. -/
theorem spend_caps_short_circuit_witness :
    (signed_spends_to_keep envC4 [{ pk := 0, content := 99 }] 0 true).1 =
        .ok list15 ∧
      Effect.networkSpendFetch (spendAddrOfPk 0) ∈
        (signed_spends_to_keep envC4 [{ pk := 0, content := 99 }] 0 false).2 :=
  have h := spend_caps_short_circuit_put_only envC4
    [{ pk := 0, content := 99 }] 0 list15 [] (by decide) rfl
    (Or.inl (by decide))
  ⟨h.1.1, h.2.1⟩

/-- Counterexample to C5 as stated: the key filter only guards the
    incoming spends, so a spend fetched from the network that carries a
    foreign public key is verified and stored, and the stored set then
    contains a spend whose canonical key differs from the record key. -/
theorem spend_store_key_invariant_counterexample :
    (validate_merge_and_store_spends envC5 [{ pk := 0, content := 0 }]
        ((NetworkAddress.spend 0).to_record_key) true).1 = .ok () ∧
    Effect.putLocalRecord
        { key := (NetworkAddress.spend 0).to_record_key,
          value := .spends
            [{ pk := 0, content := 0 }, { pk := 1, content := 0 }] } ∈
      (validate_merge_and_store_spends envC5 [{ pk := 0, content := 0 }]
          ((NetworkAddress.spend 0).to_record_key) true).2 ∧
    SignedSpend.record_key { pk := 1, content := 0 } ≠
      (NetworkAddress.spend 0).to_record_key := by
  decide

lemma signed_spends_to_keep_ok_invariant {env : Env}
    {spends : List SignedSpend} {pk : Nat} {fp : Bool}
    {validated : List SignedSpend} {str : List Effect}
    (hs : signed_spends_to_keep env spends pk fp = (.ok validated, str))
    (hl : ∀ l, localSpendsOf env (spendAddrOfPk pk) = .ok l →
      (∀ s ∈ l, s.record_key =
        (NetworkAddress.spend (spendAddrOfPk pk)).to_record_key) ∧
        l.length ≤ MAX_DOUBLE_SPEND_ATTEMPTS_TO_KEEP_PER_RECORD)
    (hn : ∀ s, s ∈ collectNetworkSpends env (spendAddrOfPk pk) →
      s.record_key = (NetworkAddress.spend (spendAddrOfPk pk)).to_record_key)
    (hsp : ∀ s ∈ spends, s.record_key =
      (NetworkAddress.spend (spendAddrOfPk pk)).to_record_key) :
    validated.length ≤ MAX_DOUBLE_SPEND_ATTEMPTS_TO_KEEP_PER_RECORD ∧
      ∀ s ∈ validated, s.record_key =
        (NetworkAddress.spend (spendAddrOfPk pk)).to_record_key := by
  rcases hg : get_local_spends env (spendAddrOfPk pk) with ⟨gres, gtr⟩
  simp only [signed_spends_to_keep, hg] at hs
  rcases gres with e | locals
  · simp at hs
  · have hloc := hl locals (by rw [localSpendsOf, hg])
    rcases hser : env.serializeSpends locals with e | bytes <;>
      simp only [hser] at hs
    · simp at hs
    · split at hs
      · injection hs with hs1 hs2
        injection hs1 with hs1
        subst hs1
        exact ⟨hloc.2, hloc.1⟩
      · rcases hv : verifyLoop env
            (spends ++ collectNetworkSpends env (spendAddrOfPk pk))
            (spendSetOf locals) false with ⟨⟨allv, flag⟩, trv⟩
        simp only [hv] at hs
        split at hs
        · simp at hs
        · rcases htake : allv.take MAX_DOUBLE_SPEND_ATTEMPTS_TO_KEEP_PER_RECORD
            with _ | ⟨v, vs⟩ <;> simp only [htake] at hs
          · simp at hs
          · injection hs with hs1 hs2
            injection hs1 with hs1
            rw [← hs1, ← htake]
            constructor
            · exact List.length_take_le _ _
            · intro s hmem
              have hallv : s ∈ allv := List.take_subset _ _ hmem
              have h5 := verifyLoop_mem env
                (spends ++ collectNetworkSpends env (spendAddrOfPk pk))
                (spendSetOf locals) false s (by rw [hv]; exact hallv)
              rcases h5 with h5 | h5
              · exact hloc.1 s (mem_spendSetOf h5)
              · rcases List.mem_append.mp h5 with h6 | h6
                · exact hsp s h6
                · exact hn s h6

/-- C5 (amended): the stored-spend invariant holds for the spends the
    core itself controls: assuming every locally stored spend list under
    a spend address matches that address and holds at most 30 spends, and
    every network-returned spend for an address matches that address,
    every Spend record written by validate_merge_and_store_spends has the
    record key of the call, at most 30 spends, and only spends whose
    canonical key equals the record key.  (As stated the claim is false:
    network-fetched spends are not key-filtered, see the counterexample.) -/
theorem spend_store_bounded_and_key_matching
    (env : Env) (incoming : List SignedSpend) (key : Key) (fp : Bool)
    (res : Except Error Unit) (tr : List Effect) (rec : Record)
    (hres : validate_merge_and_store_spends env incoming key fp = (res, tr))
    (hrec : Effect.putLocalRecord rec ∈ tr)
    (hl : ∀ addr l, localSpendsOf env addr = .ok l →
      (∀ s ∈ l, s.record_key = (NetworkAddress.spend addr).to_record_key) ∧
        l.length ≤ MAX_DOUBLE_SPEND_ATTEMPTS_TO_KEEP_PER_RECORD)
    (hn : ∀ addr s, s ∈ collectNetworkSpends env addr →
      s.record_key = (NetworkAddress.spend addr).to_record_key) :
    rec.key = key ∧
    ∃ stored, rec.value = .spends stored ∧
      stored.length ≤ MAX_DOUBLE_SPEND_ATTEMPTS_TO_KEEP_PER_RECORD ∧
      ∀ s ∈ stored, s.record_key = key := by
  unfold validate_merge_and_store_spends at hres
  rcases hfil : incoming.filter (fun s => s.record_key = key) with _ | ⟨a, rest⟩ <;>
    simp only [hfil] at hres
  · injection hres with hres1 hres2
    rw [← hres2] at hrec
    simp at hrec
  · have hfirst : a.record_key = key := by
      have h5 : a ∈ incoming.filter (fun s => s.record_key = key) := by
        rw [hfil]
        simp
      have h6 := List.of_mem_filter h5
      simpa using h6
    have hsp : ∀ s ∈ (a :: rest),
        s.record_key = (NetworkAddress.spend (spendAddrOfPk a.pk)).to_record_key := by
      intro s hmem
      have h5 : s ∈ incoming.filter (fun s => s.record_key = key) := by
        rw [hfil]
        exact hmem
      have h6 := List.of_mem_filter h5
      have h7 : s.record_key = key := by simpa using h6
      rw [h7]
      have h8 : (NetworkAddress.spend (spendAddrOfPk a.pk)).to_record_key =
          SignedSpend.record_key a := rfl
      rw [h8, hfirst]
    rcases hs : signed_spends_to_keep env (a :: rest) a.pk fp with ⟨sres, str⟩
    simp only [hs] at hres
    rcases sres with e | validated
    · injection hres with hres1 hres2
      rw [← hres2] at hrec
      exact absurd (show Effect.putLocalRecord rec ∈
          (signed_spends_to_keep env (a :: rest) a.pk fp).2 by
            rw [hs]; exact hrec)
        (signed_spends_to_keep_no_put rec)
    · rcases hser : env.serializeSpends validated with e | bytes <;>
        simp only [hser] at hres
      · injection hres with hres1 hres2
        rw [← hres2] at hrec
        exact absurd (show Effect.putLocalRecord rec ∈
            (signed_spends_to_keep env (a :: rest) a.pk fp).2 by
              rw [hs]; exact hrec)
          (signed_spends_to_keep_no_put rec)
      · injection hres with hres1 hres2
        rw [← hres2] at hrec
        rcases List.mem_append.mp hrec with h5 | h5
        · exact absurd (show Effect.putLocalRecord rec ∈
              (signed_spends_to_keep env (a :: rest) a.pk fp).2 by
                rw [hs]; exact h5)
            (signed_spends_to_keep_no_put rec)
        · have h6 := List.mem_singleton.mp h5
          injection h6 with h6
          have hinv := signed_spends_to_keep_ok_invariant hs
            (fun l hll => hl (spendAddrOfPk a.pk) l hll)
            (fun s hss => hn (spendAddrOfPk a.pk) s hss)
            hsp
          have hka : (NetworkAddress.spend (spendAddrOfPk a.pk)).to_record_key =
              key := hfirst
          refine ⟨by rw [h6], validated, by rw [h6], hinv.1, ?_⟩
          intro s hmem
          rw [← hka]
          exact hinv.2 s hmem

/-- Witness for the amended C5: a fresh spend PUT with no local copy and
    no network copies stores exactly the one incoming spend under its
    canonical key. -/
theorem spend_store_bounded_witness :
    ({ key := (NetworkAddress.spend 0).to_record_key,
        value := .spends [{ pk := 0, content := 0 }] } : Record).key =
        (NetworkAddress.spend 0).to_record_key ∧
    ∃ stored,
      ({ key := (NetworkAddress.spend 0).to_record_key,
          value := .spends [{ pk := 0, content := 0 }] } : Record).value =
        .spends stored ∧
      stored.length ≤ MAX_DOUBLE_SPEND_ATTEMPTS_TO_KEEP_PER_RECORD ∧
      ∀ s ∈ stored, s.record_key = (NetworkAddress.spend 0).to_record_key :=
  spend_store_bounded_and_key_matching baseEnv [{ pk := 0, content := 0 }]
    ((NetworkAddress.spend 0).to_record_key) true (.ok ())
    [.localRecordGet ((NetworkAddress.spend 0).to_record_key),
      .networkSpendFetch 0, .spendVerify { pk := 0, content := 0 },
      .putLocalRecord
        { key := (NetworkAddress.spend 0).to_record_key,
          value := .spends [{ pk := 0, content := 0 }] }]
    { key := (NetworkAddress.spend 0).to_record_key,
      value := .spends [{ pk := 0, content := 0 }] }
    (by decide) (by decide)
    (by
      intro addr l h
      simp only [localSpendsOf, get_local_spends, baseEnv] at h
      injection h with h2
      rw [← h2]
      simp)
    (by
      intro addr s h
      simp [collectNetworkSpends, baseEnv] at h)

/-- C6: in signed_spends_to_keep, after the verification loop reported a
    double-spent parent, the call fails with Transfers(InvalidParentSpend)
    and performs no store when exactly one spend survived, and succeeds
    with the capped surviving set (still holding the double-spend
    evidence) when more than one spend survived. -/
theorem parent_double_spend_policy
    (env : Env) (spends : List SignedSpend) (pk : Nat) (fp : Bool)
    (local_spends : List SignedSpend) (bytes : Bytes)
    (allv : List SignedSpend)
    (h1 : (get_local_spends env (spendAddrOfPk pk)).1 = .ok local_spends)
    (h2 : env.serializeSpends local_spends = .ok bytes)
    (h3 : (spendCapsReached local_spends bytes.length && fp) = false)
    (h4 : (verifyLoop env
        (spends ++ collectNetworkSpends env (spendAddrOfPk pk))
        (spendSetOf local_spends) false).1 = (allv, true)) :
    (allv.length = 1 →
      (signed_spends_to_keep env spends pk fp).1 =
        .error (.transfers .invalidParentSpend) ∧
      ∀ r, Effect.putLocalRecord r ∉
        (signed_spends_to_keep env spends pk fp).2) ∧
    (allv.length > 1 →
      (signed_spends_to_keep env spends pk fp).1 =
        .ok (allv.take MAX_DOUBLE_SPEND_ATTEMPTS_TO_KEEP_PER_RECORD) ∧
      (allv.take MAX_DOUBLE_SPEND_ATTEMPTS_TO_KEEP_PER_RECORD).length > 1) := by
  rcases hg : get_local_spends env (spendAddrOfPk pk) with ⟨res, tr⟩
  rw [hg] at h1
  simp only at h1
  subst h1
  rcases hv : verifyLoop env
      (spends ++ collectNetworkSpends env (spendAddrOfPk pk))
      (spendSetOf local_spends) false with ⟨⟨allv2, flag⟩, trv⟩
  rw [hv] at h4
  simp only at h4
  injection h4 with h4a h4b
  rw [h4a, h4b] at hv
  constructor
  · intro hlen
    refine ⟨?_, fun r => signed_spends_to_keep_no_put r⟩
    simp only [signed_spends_to_keep, hg, h2, h3, Bool.false_eq_true,
      reduceIte, hv, hlen]
    simp
  · intro hlen
    have hne1 : decide (allv.length = 1) = false := by
      simp only [decide_eq_false_iff_not]
      omega
    have htake : allv.take MAX_DOUBLE_SPEND_ATTEMPTS_TO_KEEP_PER_RECORD ≠ [] := by
      intro hc
      rcases List.take_eq_nil_iff.mp hc with hc2 | hc2
      · simp [MAX_DOUBLE_SPEND_ATTEMPTS_TO_KEEP_PER_RECORD] at hc2
      · rw [hc2] at hlen
        simp at hlen
    constructor
    · rcases hnil : allv.take MAX_DOUBLE_SPEND_ATTEMPTS_TO_KEEP_PER_RECORD
        with _ | ⟨v, vs⟩
      · exact absurd hnil htake
      · simp only [signed_spends_to_keep, hg, h2, h3, Bool.false_eq_true,
          reduceIte, hv, hne1, Bool.and_false, hnil]
    · rw [List.length_take]
      simp only [MAX_DOUBLE_SPEND_ATTEMPTS_TO_KEEP_PER_RECORD]
      omega

/-- Witness for C6: a single spend with a double-spent parent is
    rejected; two surviving spends of the same key are kept as evidence. -/
theorem parent_double_spend_policy_witness :
    (signed_spends_to_keep envC6 [{ pk := 0, content := 0 }] 0 true).1 =
        .error (.transfers .invalidParentSpend) ∧
      (signed_spends_to_keep envC6b [{ pk := 0, content := 0 }] 0 true).1 =
        .ok [{ pk := 0, content := 0 }, { pk := 0, content := 1 }] :=
  ⟨((parent_double_spend_policy envC6 [{ pk := 0, content := 0 }] 0 true
        [] [] [{ pk := 0, content := 0 }]
        (by decide) rfl (by decide) (by decide)).1 (by decide)).1,
    ((parent_double_spend_policy envC6b [{ pk := 0, content := 0 }] 0 true
        [] [] [{ pk := 0, content := 0 }, { pk := 0, content := 1 }]
        (by decide) rfl (by decide) (by decide)).2 (by decide)).1⟩

/-- C7: for a RegisterWithPayment record on the client entry point whose
    payment validation fails, the payment error is discarded and the call
    continues into register validation and merge when the register
    already exists locally, and is returned to the caller with nothing
    written when the register does not exist locally. -/
theorem paid_register_payment_error_policy
    (env : Env) (record : Record) (p : Payment) (reg : SignedRegister)
    (err : Error)
    (hv : record.value = .registerWithPayment p reg)
    (hk : record.key = reg.record_key)
    (hp : (payment_for_us_exists_and_is_still_valid env
        (NetworkAddress.register reg.addr) p).1 = .error err) :
    (env.presentLocally reg.record_key = .ok true →
      (validate_and_store_record env record).1 =
        (validate_and_store_register env reg true).1) ∧
    (env.presentLocally reg.record_key = .ok false →
      (validate_and_store_record env record).1 = .error err ∧
      ∀ r, Effect.putLocalRecord r ∉
        (validate_and_store_record env record).2) := by
  rcases hpe : payment_for_us_exists_and_is_still_valid env
      (NetworkAddress.register reg.addr) p with ⟨pres, ptr⟩
  rw [hpe] at hp
  simp only at hp
  subst hp
  constructor
  · intro hpres
    have hpres2 : env.presentLocally
        (NetworkAddress.register reg.addr).to_record_key = .ok true := hpres
    simp only [validate_and_store_record, hv, recordHeaderKind,
      deserializeRegisterWithPayment, hk, SignedRegister.record_key, ne_eq,
      not_true_eq_false, reduceIte, validate_key_and_existence, hpres2, hpe]
  · intro hpres
    have hpres2 : env.presentLocally
        (NetworkAddress.register reg.addr).to_record_key = .ok false := hpres
    have hmain : validate_and_store_record env record =
        (.error err,
          .notifyFetchCompleted record.key ::
            .presenceCheck reg.record_key :: ptr) := by
      simp only [validate_and_store_record, hv, recordHeaderKind,
        deserializeRegisterWithPayment, hk, SignedRegister.record_key, ne_eq,
        not_true_eq_false, reduceIte, validate_key_and_existence, hpres2, hpe]
      simp
    refine ⟨by rw [hmain], ?_⟩
    intro r hmem
    rw [hmain] at hmem
    simp only [List.mem_cons] at hmem
    rcases hmem with h1 | h1 | h1
    · simp at h1
    · simp at h1
    · have h2 : Effect.putLocalRecord r ∈
          (payment_for_us_exists_and_is_still_valid env
            (NetworkAddress.register reg.addr) p).2 := by
        rw [hpe]
        exact h1
      exact payment_trace_no_put r h2

/-- Witness for C7: an invalid (empty) payment with an existing register
    continues into the register path; with a fresh register it surfaces
    the payment error. -/
theorem paid_register_payment_error_witness :
    (validate_and_store_record envC7 recC7).1 =
        (validate_and_store_register envC7 regC7 true).1 ∧
      (validate_and_store_record envC7b recC7).1 =
        .error (.noPaymentToOurNode (NetworkAddress.register 0).to_record_key) :=
  ⟨(paid_register_payment_error_policy envC7 recC7
        { transfers := [], quote := { cost := 0 } } regC7
        (.noPaymentToOurNode (NetworkAddress.register 0).to_record_key)
        rfl rfl (by decide)).1 rfl,
    ((paid_register_payment_error_policy envC7b recC7
        { transfers := [], quote := { cost := 0 } } regC7
        (.noPaymentToOurNode (NetworkAddress.register 0).to_record_key)
        rfl rfl (by decide)).2 rfl).1⟩

/-- C8: a register PUT whose incoming register verifies and whose merge
    with the local copy equals the local copy succeeds, writes nothing,
    triggers no outbound replication, and notifies the replication
    fetcher for the register key (its full effect trace is the presence
    check, the local read, and the fetcher notification). -/
theorem register_merge_equal_no_write
    (env : Env) (reg : SignedRegister) (wp : Bool)
    (localRec : Record) (localReg : SignedRegister)
    (h1 : env.registerVerify reg = .ok ())
    (h2 : env.presentLocally reg.record_key = .ok true)
    (h3 : env.getLocalRecord reg.record_key = .ok (some localRec))
    (h4 : localRec.value = .register localReg)
    (h5 : env.verifiedMerge localReg reg = .ok localReg) :
    validate_and_store_register env reg wp =
      (.ok (),
        [.presenceCheck reg.record_key, .localRecordGet reg.record_key,
          .notifyFetchCompleted reg.record_key]) := by
  have hval : register_validation env reg true =
      (.ok none, [.localRecordGet reg.record_key]) := by
    simp only [register_validation, h1, Bool.not_true, Bool.false_eq_true,
      reduceIte, h3, h4, deserializeRegister, h5]
    try simp
  simp only [validate_and_store_register, h2, hval]
  try simp

/-- Witness for C8: a concrete no-change register PUT. -/
theorem register_merge_equal_no_write_witness :
    validate_and_store_register envC8 { addr := 0, data := 0 } false =
      (.ok (),
        [.presenceCheck (SignedRegister.record_key { addr := 0, data := 0 }),
          .localRecordGet (SignedRegister.record_key { addr := 0, data := 0 }),
          .notifyFetchCompleted
            (SignedRegister.record_key { addr := 0, data := 0 })]) :=
  register_merge_equal_no_write envC8 { addr := 0, data := 0 } false
    { key := Nat.pair 1 0, value := .register { addr := 0, data := 0 } }
    { addr := 0, data := 0 } rfl rfl rfl rfl rfl

/-- C9 (amended part): validate_and_store_record notifies the replication
    fetcher for the record key as its first effect, before any other
    external call, for every record whose header parses. -/
theorem client_entry_notifies_first
    (env : Env) (record : Record) (k : RecordKind)
    (h : recordHeaderKind record.value = .ok k) :
    (validate_and_store_record env record).2.head? =
      some (.notifyFetchCompleted record.key) := by
  simp only [validate_and_store_record, h]
  cases k
  · rfl
  · rcases hd : deserializeChunkWithPayment record.value with e | ⟨p, c⟩ <;>
      try simp only [hd]
    · rfl
    · rcases hke : validate_key_and_existence env c.network_address record.key
        with ⟨kres, ktr⟩
      try simp only [hke]
      rcases kres with e | already
      · rfl
      · rcases hpe : payment_for_us_exists_and_is_still_valid env
            c.network_address p with ⟨pres, ptr⟩
        try simp only [hpe]
        rcases already
        · rcases pres with e | u
          · rfl
          · rcases hsc : store_chunk env c with ⟨sres, strc⟩
            try simp only [hsc]
            rcases sres with e | u2 <;> rfl
        · rfl
  · rcases hd : deserializeRegister record.value with e | reg <;>
      try simp only [hd]
    · rfl
    · rcases hke : validate_key_and_existence env
          (NetworkAddress.register reg.addr)
          (NetworkAddress.register reg.addr).to_record_key with ⟨kres, ktr⟩
      try simp only [hke]
      rcases kres with e | already
      · rfl
      · rcases already
        · rfl
        · rcases hvr : validate_and_store_register env reg true with ⟨vres, vtr⟩
          try simp only [hvr]
          rfl
  · rcases hd : deserializeRegisterWithPayment record.value with e | ⟨p, reg⟩ <;>
      try simp only [hd]
    · rfl
    · by_cases hkq : record.key =
        (NetworkAddress.register reg.addr).to_record_key
      · simp only [hkq, ne_eq, not_true_eq_false, reduceIte]
        rcases hke : validate_key_and_existence env
            (NetworkAddress.register reg.addr)
            (NetworkAddress.register reg.addr).to_record_key with ⟨kres, ktr⟩
        try simp only [hke]
        rcases kres with e | already
        · rfl
        · rcases hpe : payment_for_us_exists_and_is_still_valid env
              (NetworkAddress.register reg.addr) p with ⟨pres, ptr⟩
          try simp only [hpe]
          rcases pres with e | u
          · rcases already <;> rfl
          · rfl
      · simp only [hkq, ne_eq, not_false_eq_true, reduceIte]
        rfl
  · rcases hd : deserializeSpends record.value with e | spends <;>
      try simp only [hd]
    · rfl
    · rcases hvm : validate_merge_and_store_spends env spends record.key true
        with ⟨vres, vtr⟩
      try simp only [hvm]
      rcases vres with e | u <;> rfl

/-- Witness for C9: a concrete chunk record on the client entry point;
    the first effect is the fetcher notification. -/
theorem client_entry_notifies_first_witness :
    (validate_and_store_record envC9 recC9).2.head? =
      some (.notifyFetchCompleted recC9.key) :=
  client_entry_notifies_first envC9 recC9 .Chunk rfl

/-- Counterexample to C9 as stated: the replication entry point
    store_replicated_in_record performs no fetcher notification at all; a
    replicated chunk PUT completes with only a presence check. -/
theorem replication_entry_no_notify_counterexample :
    store_replicated_in_record envC9 recC9 =
      (.ok (), [.presenceCheck (Nat.pair 0 5)]) ∧
    Effect.notifyFetchCompleted recC9.key ∉
      (store_replicated_in_record envC9 recC9).2 := by
  decide

/-- C10: an unpaid Register on the client entry point derives both the
    existence check and the store key from the register payload itself
    and never compares the record key field, so validate_and_store_record
    never returns RecordKeyMismatch for it, while the replication entry
    point does compare and rejects a disagreeing key field. -/
theorem unpaid_register_never_key_mismatch
    (env : Env) (record : Record) (reg : SignedRegister)
    (hv : record.value = .register reg) :
    (validate_and_store_record env record).1 ≠ .error .recordKeyMismatch ∧
    (record.key ≠ reg.record_key →
      (store_replicated_in_record env record).1 = .error .recordKeyMismatch) := by
  constructor
  · intro hc
    simp only [validate_and_store_record, hv, recordHeaderKind,
      deserializeRegister] at hc
    rcases hke : validate_key_and_existence env
        (NetworkAddress.register reg.addr)
        (NetworkAddress.register reg.addr).to_record_key with ⟨kres, ktr⟩
    rw [hke] at hc
    have hkres : kres ≠ .error .recordKeyMismatch := by
      intro hkc
      rw [hkc] at hke
      unfold validate_key_and_existence at hke
      simp only [ne_eq, not_true_eq_false, reduceIte] at hke
      rcases h6 : env.presentLocally
          (NetworkAddress.register reg.addr).to_record_key with e | b <;>
        rw [h6] at hke <;> simp at hke
    rcases kres with e | already
    · simp only at hc
      injection hc with hc2
      exact hkres (by rw [hc2])
    · rcases already
      · simp at hc
      · simp only at hc
        rcases hvr : validate_and_store_register env reg true with ⟨vres, vtr⟩
        rw [hvr] at hc
        simp only at hc
        exact validate_and_store_register_ne_mismatch (by rw [hvr, hc])
  · intro hne
    have hne2 : ¬ record.key =
        (NetworkAddress.register reg.addr).to_record_key := by
      simpa [SignedRegister.record_key] using hne
    simp only [store_replicated_in_record, hv, recordHeaderKind,
      deserializeRegister, SignedRegister.record_key]
    simp [hne2]

/-- Witness for C10: a register record with a disagreeing key field is
    accepted for key purposes on the client path (no RecordKeyMismatch)
    and rejected on the replication path. -/
theorem unpaid_register_never_key_mismatch_witness :
    (validate_and_store_record baseEnv recC10).1 ≠
        .error .recordKeyMismatch ∧
      (store_replicated_in_record baseEnv recC10).1 =
        .error .recordKeyMismatch :=
  have h := unpaid_register_never_key_mismatch baseEnv recC10
    { addr := 0, data := 0 } rfl
  ⟨h.1, h.2 (by decide)⟩

end PutValidation
